import Mathlib

/-!
Verification of the Loan.ly call-flow service (`src/app.py`).

The Python program is shallowly embedded as pure Lean functions:

* the global dictionary `active_calls` becomes an association list `Store`
  from string keys to `SessionData` records;
* the Flask webhook `handle_call` becomes a function from the store and the
  request parameters to the updated store and the list of TwiML verbs of the
  response (exceptions are modelled with `Except`, the outermost
  `try/except` of the route becomes the fallback match in `handle_call`);
* `initiate_automated_call` becomes a function returning the updated store,
  the result of the request, and the list of outbound calls placed with the
  telephony gateway (gateway placement is assumed to succeed and to return
  the given call sid; URL percent-encoding of the callback parameters is
  abstracted away, the parameters are carried structurally);
* `process_incomplete_application` becomes a fold over the snapshot of the
  matching store keys, returning the updated store, the list of persisted
  result records and the number of decision-service invocations;
* the OpenAI decision service is an environment parameter `OracleResult`:
  either a transport failure (any exception in the client call) or the raw
  string produced by the model.
-/

/-! ## Python string primitives (faithful to `str` semantics used in the source) -/

/-- Lower-case an ASCII letter, as Python `str.lower` does on the strings
occurring in this program. -/
def lowerChar (c : Char) : Char :=
  if 65 ≤ c.toNat ∧ c.toNat ≤ 90 then Char.ofNat (c.toNat + 32) else c

/-- Python `s.lower()` (ASCII fragment). -/
def pyLower (s : String) : String := ⟨s.data.map lowerChar⟩

/-- `needle` occurs as a contiguous substring of `hay` (Python `in` on strings). -/
def isSubChars (needle : List Char) : List Char → Bool
  | [] => needle.isEmpty
  | c :: t => needle.isPrefixOf (c :: t) || isSubChars needle t

/-- Python `needle in hay` for strings. -/
def strContains (hay needle : String) : Bool := isSubChars needle.data hay.data

/-- Python `s.startswith(p)`. -/
def strStartsWith (s p : String) : Bool := p.data.isPrefixOf s.data

/-- Whitespace characters stripped by Python `str.strip()`. -/
def isSpaceChar (c : Char) : Bool := c = ' ' || c = '\t' || c = '\n' || c = '\r'

/-- Strip leading and trailing whitespace from a character list. -/
def stripChars (cs : List Char) : List Char :=
  ((cs.dropWhile isSpaceChar).reverse.dropWhile isSpaceChar).reverse

/-- Python `s.strip()`. -/
def pyStrip (s : String) : String := ⟨stripChars s.data⟩

/-- Value of a non-empty list of decimal digits. -/
def digitsToNat (cs : List Char) : Nat :=
  cs.foldl (fun a c => a * 10 + (c.toNat - 48)) 0

/-- Python `int(s)` on a decimal string: strips whitespace, accepts an
optional sign followed by digits, raises `ValueError` (here: `none`)
otherwise. -/
def parseIntPy (s : String) : Option Int :=
  match stripChars s.data with
  | [] => none
  | c :: rest =>
    if c = '-' then
      if !rest.isEmpty && rest.all Char.isDigit then some (-(digitsToNat rest : Int)) else none
    else if c = '+' then
      if !rest.isEmpty && rest.all Char.isDigit then some (digitsToNat rest : Int) else none
    else if (c :: rest).all Char.isDigit then some (digitsToNat (c :: rest) : Int) else none

/-- Python `s.split('_')` on the character list. -/
def splitOnUnderscore : List Char → List (List Char)
  | [] => [[]]
  | c :: t =>
    if c = '_' then [] :: splitOnUnderscore t
    else
      match splitOnUnderscore t with
      | [] => [[c]]
      | h :: t2 => (c :: h) :: t2

/-- Python `key.split('_')[1]`; only evaluated when `'_' in key`, so the
second part exists. -/
def secondUnderscorePart (k : String) : String :=
  match splitOnUnderscore k.data with
  | _ :: h :: _ => ⟨h⟩
  | _ => ""

/-- Python `xs[i]` with negative-index wrap-around; `none` models `IndexError`. -/
def pyListGet (xs : List String) (i : Int) : Option String :=
  if 0 ≤ i then xs.get? i.toNat
  else if (-i).toNat ≤ xs.length then xs.get? (xs.length - (-i).toNat) else none

/-! ## Data model: the session store (`active_calls`) -/

/-- One value of the global `active_calls` dictionary.  The Python values are
heterogeneous dicts; each field below models one key that some revision of
the code stores, `none` / `false` meaning the key is absent. -/
structure SessionData where
  call_sid : Option String := none
  timestamp : Option Nat := none
  customer_name : Option String := none
  application_type : Option String := none
  responses : Option (List (Int × String)) := none
  verdict_delivered : Bool := false
  outro_played : Bool := false
  processing : Bool := false
  deriving DecidableEq

/-- The global `active_calls` dictionary: an association list keyed by the
string keys the source uses (a bare phone number at call initiation, and
`phone_number ++ "_" ++ application_type` in the controller). -/
abbrev Store := List (String × SessionData)

/-- Python `active_calls.get(k)` / `k in active_calls`. -/
def storeFind : Store → String → Option SessionData
  | [], _ => none
  | (k', v) :: rest, k => if k' = k then some v else storeFind rest k

/-- Python `active_calls[k] = v`: replaces the binding in place, or appends. -/
def storeInsert : Store → String → SessionData → Store
  | [], k, v => [(k, v)]
  | (k', v') :: rest, k, v =>
    if k' = k then (k, v) :: rest else (k', v') :: storeInsert rest k v

/-- Python `del active_calls[k]`. -/
def storeErase : Store → String → Store
  | [], _ => []
  | (k', v') :: rest, k => if k' = k then rest else (k', v') :: storeErase rest k

/-- Python `responses[i] = u` on the responses dict (update in place or append). -/
def upsert : List (Int × String) → Int → String → List (Int × String)
  | [], k, v => [(k, v)]
  | (k', v') :: rest, k, v =>
    if k' = k then (k, v) :: rest else (k', v') :: upsert rest k v

/-- Python `responses.get(i)`. -/
def lookupResp : List (Int × String) → Int → Option String
  | [], _ => none
  | (k', v') :: rest, k => if k' = k then some v' else lookupResp rest k

/-! ## Question catalogs -/

/-- `Loanly.generate_loan_questions`. -/
def generate_loan_questions : List String :=
  [ "What is your current age?",
    "What is your monthly income in Indian Rupees?",
    "Are you a salaried employee, self-employed, or a business owner?",
    "In which city and state do you currently reside?",
    "What is your current occupation and industry?",
    "How much loan amount are you seeking in Indian Rupees?",
    "Do you have a CIBIL credit score?",
    "Are you a first-time loan applicant?",
    "Do you have any existing EMIs or loan commitments?",
    "What is the primary purpose of this loan?" ]

/-- `Loanly.generate_cc_questions` (the commented-out prompts are absent). -/
def generate_cc_questions : List String :=
  [ "What is your current age?",
    "What is your annual income in Indian Rupees?",
    "Are you employed in private sector, government, or self-employed?" ]

/-- Catalog selection in `handle_call`:
`generate_loan_questions() if application_type == 'loan' else generate_cc_questions()`. -/
def questionsFor (app : String) : List String :=
  if app = "loan" then generate_loan_questions else generate_cc_questions

/-! ## TwiML output model -/

/-- The callback URL parameters attached to a `gather` action. -/
structure GatherAction where
  application_type : String
  name : String
  step : Int
  phone_number : String
  deriving DecidableEq

/-- One TwiML verb of the voice response; `gather` carries the nested `say`
texts spoken inside the gather. -/
inductive Verb where
  | say (text : String)
  | pause (length : Nat)
  | gather (action : GatherAction) (nested : List String)
  | hangup
  deriving DecidableEq

/-! ## The call flow controller (`handle_call`) -/

/-- `display_type = "credit card" if application_type == "credit_card" else application_type`. -/
def displayType (app : String) : String :=
  if app = "credit_card" then "credit card" else app

/-- Consent keywords checked at step 1. -/
def consentKeywords : List String := ["yes", "okay", "sure", "go ahead"]

/-- The step-1 consent test:
`previous_response and any(word in previous_response.lower() for word in [...])`. -/
def isAffirmative (utt : String) : Bool :=
  if utt = "" then false
  else consentKeywords.any (fun w => strContains (pyLower utt) w)

/-- Terminal call statuses recognised by the controller and the status route. -/
def terminalStatuses : List String :=
  ["completed", "failed", "busy", "no-answer", "canceled"]

/-- The `should_play_outro` condition of the question branch. -/
def should_play_outro (questions : List String) (qi : Int)
    (callStatus digits dialCallStatus : String) : Bool :=
  decide ((questions.length : Int) - 1 ≤ qi) || decide (callStatus ∈ terminalStatuses)
    || strContains digits "Hangup" || decide (dialCallStatus ∈ terminalStatuses)

/-- The response-recording block of the question branch (`if previous_response:`):
creates the session on first speech, then `responses[step-2] = previous_response`.
A session existing without a `responses` key would raise `KeyError`. -/
def recordResponse (st : Store) (key name speech : String) (idx : Int) :
    Except String Store :=
  if speech = "" then Except.ok st
  else
    match storeFind st key with
    | none =>
      Except.ok (storeInsert st key
        { responses := some [(idx, speech)], customer_name := some name })
    | some sd =>
      match sd.responses with
      | none => Except.error "KeyError: responses"
      | some rs =>
        Except.ok (storeInsert st key { sd with responses := some (upsert rs idx speech) })

/-- The outro marking: `active_calls[session_key]['verdict_delivered'] = True`
and `['outro_played'] = True` when the key is present. -/
def markDelivered (st : Store) (key : String) : Store :=
  match storeFind st key with
  | some sd => storeInsert st key { sd with verdict_delivered := true, outro_played := true }
  | none => st

/-- Fixed spoken lines of the controller. -/
def step0Line (name dt : String) : String :=
  "Hi " ++ name ++ ", is it the right time to speak to you about your " ++ dt ++ " application?"

def transitionLine (dt : String) : String :=
  "Great! I\x27ll ask you a few questions to evaluate your " ++ dt ++ " application."

def declineLine : String :=
  "I understand this isn\x27t a good time. We\x27ll call you back later. Thank you!"

def outroThanksLine : String :=
  "Thank you for providing the information. We are now evaluating your application."

def outroReachLine : String :=
  "Our team will reach out to you within 24 hours with the results. Have a great day!"

def apologyLine : String :=
  "I apologize, but there was an error. We will call you back later."

/-- The body of the `try` block of the `/handle-call` route: given the store
and the request parameters, the new store and either the TwiML verbs or the
message of a raised exception.  Mutations performed before a raise are kept,
as they are on the Python global dict. -/
def handle_call_core (st : Store) (app name stepRaw speech phone cs dg dcs : String) :
    Store × Except String (List Verb) :=
  match parseIntPy stepRaw with
  | none => (st, Except.error "invalid literal for int() with base 10")
  | some step =>
    if step = 0 then
      (st, Except.ok [Verb.say (step0Line name (displayType app)),
                      Verb.gather ⟨app, name, 1, phone⟩ []])
    else if step = 1 then
      if isAffirmative speech then
        match pyListGet (questionsFor app) 0 with
        | none => (st, Except.error "list index out of range")
        | some q0 =>
          (st, Except.ok [Verb.say (transitionLine (displayType app)), Verb.pause 1,
                          Verb.gather ⟨app, name, 2, phone⟩ [q0]])
      else
        (st, Except.ok [Verb.say declineLine, Verb.hangup])
    else if step < ((questionsFor app).length : Int) + 2 then
      match recordResponse st (phone ++ "_" ++ app) name speech (step - 2) with
      | Except.error e => (st, Except.error e)
      | Except.ok st1 =>
        if should_play_outro (questionsFor app) (step - 2) cs dg dcs then
          (markDelivered st1 (phone ++ "_" ++ app),
           Except.ok [Verb.say outroThanksLine, Verb.pause 1,
                      Verb.say outroReachLine, Verb.hangup])
        else
          match pyListGet (questionsFor app) (step - 2) with
          | none => (st1, Except.error "list index out of range")
          | some q => (st1, Except.ok [Verb.gather ⟨app, name, step + 1, phone⟩ [q]])
    else
      (st, Except.ok [])

/-- The `/handle-call` route: the `except Exception` handler turns any raised
exception into the apology-plus-hangup document, so the route always returns
a TwiML document. -/
def handle_call (st : Store) (app name stepRaw speech phone cs dg dcs : String) :
    Store × List Verb :=
  match handle_call_core st app name stepRaw speech phone cs dg dcs with
  | (st', Except.ok vs) => (st', vs)
  | (st', Except.error _) => (st', [Verb.say apologyLine, Verb.hangup])

/-! ## Outbound call initiator (`initiate_automated_call`) -/

/-- The outcome returned to the `/call` client. -/
inductive InitiateResult where
  | success (call_sid : String)
  | conflict (existing_sid : String)
  | failure (msg : String)
  deriving DecidableEq

/-- Result of one run of the initiator: the HTTP-level result, the store
afterwards, and the sids of the outbound calls placed with the gateway. -/
structure InitiateOutcome where
  result : InitiateResult
  store : Store
  placedCalls : List String
  deriving DecidableEq

/-- The session seeded by the initiator:
`{'call_sid': ..., 'timestamp': now, 'customer_name': ..., 'application_type': ...}`. -/
def freshSession (call_sid : String) (now : Nat) (name app : String) : SessionData :=
  { call_sid := some call_sid, timestamp := some now,
    customer_name := some name, application_type := some app }

/-- `initiate_automated_call` (the session-store logic; credentials are
assumed present and the gateway placement succeeds returning `newSid`).
A session younger than 30 seconds yields the 409 conflict carrying the
existing `call_sid`; an older one is deleted and replaced. -/
def initiate_automated_call (st : Store) (application_type customer_number customer_name : String)
    (now : Nat) (newSid : String) : InitiateOutcome :=
  match storeFind st customer_number with
  | some sd =>
    match sd.timestamp with
    | none => ⟨InitiateResult.failure "KeyError: timestamp", st, []⟩
    | some last =>
      if now - last < 30 then
        match sd.call_sid with
        | none => ⟨InitiateResult.failure "KeyError: call_sid", st, []⟩
        | some sid => ⟨InitiateResult.conflict sid, st, []⟩
      else
        ⟨InitiateResult.success newSid,
         storeInsert (storeErase st customer_number) customer_number
           (freshSession newSid now customer_name application_type),
         [newSid]⟩
  | none =>
    ⟨InitiateResult.success newSid,
     storeInsert st customer_number (freshSession newSid now customer_name application_type),
     [newSid]⟩

/-! ## Decision service boundary -/

/-- Environment of one decision-service invocation: either the transport /
client call raised, or the model produced the raw string `s`. -/
inductive OracleResult where
  | transportFailure
  | output (s : String)
  deriving DecidableEq

/-- `Loanly.evaluate_loan_application`: returns the stripped model output;
any exception is caught and replaced by `INVESTIGATION_REQUIRED`. -/
def evaluate_loan_application (oracle : OracleResult) : String :=
  match oracle with
  | OracleResult.transportFailure => "INVESTIGATION_REQUIRED"
  | OracleResult.output s => pyStrip s

/-- `Loanly.evaluate_cc_application`: same output contract as the loan
evaluator (the rubric differs only inside the opaque prompt). -/
def evaluate_cc_application (oracle : OracleResult) : String :=
  match oracle with
  | OracleResult.transportFailure => "INVESTIGATION_REQUIRED"
  | OracleResult.output s => pyStrip s

/-! ## Finalization dispatcher (`process_incomplete_application`) -/

/-- The lifecycle fields of the triggering callback (`call_data`);
`CallDuration` is carried pre-parsed as a number of seconds. -/
structure CallData where
  callDuration : Option Nat := none
  callStatus : Option String := none
  deriving DecidableEq

/-- One persisted result record (`response_data` written to `responses/...json`). -/
structure RecordData where
  customer_name : String
  phone_number : String
  application_type : String
  verdict : String
  comments : List String
  timestamp : Nat
  call_duration : Option Nat
  call_status : Option String
  deriving DecidableEq

/-- Accumulated effects of a finalization run. -/
structure FinalizeOutcome where
  store : Store
  records : List RecordData
  decisionCalls : Nat
  deriving DecidableEq

/-- The verdict-dependent comment line. -/
def verdictComments (verdict : String) : List String :=
  if verdict = "YES" then ["Application meets all eligibility criteria"]
  else if verdict = "NO" then ["Application does not meet minimum eligibility requirements"]
  else ["Further verification and documentation required"]

/-- The call-duration comment lines. -/
def durationComments (cd : CallData) : List String :=
  match cd.callDuration with
  | none => []
  | some d =>
    if d < 30 then ["Call duration was too short - incomplete information"]
    else if d < 60 then ["Partial information collected"]
    else []

/-- The body of the `for session_key in session_keys:` loop of
`process_incomplete_application`, acting on the accumulated outcome. -/
def finalizeStep (oracle : OracleResult) (cd : CallData) (now : Nat) (phone : String)
    (acc : FinalizeOutcome) (key : String) : FinalizeOutcome :=
  match storeFind acc.store key with
  | none => acc
  | some sd =>
    if sd.verdict_delivered then acc
    else
      match sd.responses with
      | none => acc
      | some _ =>
        let app := if strContains key "_" then secondUnderscorePart key else "unknown"
        let verdict := if app = "credit_card" then evaluate_cc_application oracle
                       else evaluate_loan_application oracle
        let record : RecordData :=
          { customer_name := sd.customer_name.getD "Unknown"
            phone_number := phone
            application_type := if app = "credit_card" then "Credit Card" else "Loan"
            verdict := verdict
            comments := verdictComments verdict ++ durationComments cd
            timestamp := now
            call_duration := cd.callDuration
            call_status := cd.callStatus }
        { store := storeErase (storeInsert acc.store key { sd with processing := true }) key
          records := acc.records ++ [record]
          decisionCalls := acc.decisionCalls + 1 }

/-- The key filter of `process_incomplete_application`:
`k.startswith(phone_number) or k == phone_number`. -/
def keyMatches (phone k : String) : Bool := strStartsWith k phone || decide (k = phone)

/-- The snapshot `session_keys = [k for k in active_calls.keys() if ...]`. -/
def matchingKeys (st : Store) (phone : String) : List String :=
  (st.map Prod.fst).filter (keyMatches phone)

/-- `process_incomplete_application(phone_number, call_data)`: folds the loop
body over the snapshot of matching keys. -/
def process_incomplete_application (st : Store) (phone : String) (cd : CallData)
    (oracle : OracleResult) (now : Nat) : FinalizeOutcome :=
  (matchingKeys st phone).foldl (finalizeStep oracle cd now phone) ⟨st, [], 0⟩


/-! ## Store lemmas -/

theorem find_insert (st : Store) (k₀ k : String) (v : SessionData) :
    storeFind (storeInsert st k₀ v) k = if k₀ = k then some v else storeFind st k := by
  induction st with
  | nil => simp [storeInsert, storeFind]
  | cons hd tl ih =>
    obtain ⟨k', v'⟩ := hd
    by_cases h : k' = k₀
    · subst h
      by_cases hk : k' = k <;> simp [storeInsert, storeFind, hk]
    · by_cases hk : k' = k
      · subst hk
        have hne : ¬ (k₀ = k') := fun he => h he.symm
        simp [storeInsert, storeFind, h, hne]
      · simp [storeInsert, storeFind, h, hk, ih]

theorem find_erase_ne (st : Store) (k₀ k : String) (h : k₀ ≠ k) :
    storeFind (storeErase st k₀) k = storeFind st k := by
  induction st with
  | nil => rfl
  | cons hd tl ih =>
    obtain ⟨k', v'⟩ := hd
    by_cases hk : k' = k₀
    · simp only [storeErase, if_pos hk, storeFind]
      rw [if_neg (fun he : k' = k => h (hk ▸ he))]
    · simp only [storeErase, if_neg hk, storeFind]
      by_cases hkk : k' = k
      · rw [if_pos hkk, if_pos hkk]
      · rw [if_neg hkk, if_neg hkk, ih]

theorem insert_erase_cancel (st : Store) (k : String) (v sd : SessionData)
    (h : storeFind st k = some sd) :
    storeErase (storeInsert st k v) k = storeErase st k := by
  induction st with
  | nil => simp [storeFind] at h
  | cons hd tl ih =>
    obtain ⟨k', v'⟩ := hd
    by_cases hk : k' = k
    · subst hk
      simp [storeInsert, storeErase]
    · simp only [storeFind, if_neg hk] at h
      simp [storeInsert, storeErase, hk, ih h]

theorem find_mem_keys (st : Store) (k : String) (sd : SessionData)
    (h : storeFind st k = some sd) : k ∈ st.map Prod.fst := by
  induction st with
  | nil => simp [storeFind] at h
  | cons hd tl ih =>
    obtain ⟨k', v'⟩ := hd
    by_cases hk : k' = k
    · subst hk; simp
    · simp only [storeFind, if_neg hk] at h
      simp [ih h]

theorem keys_erase_sublist (st : Store) (k : String) :
    ((storeErase st k).map Prod.fst).Sublist (st.map Prod.fst) := by
  induction st with
  | nil => simp [storeErase]
  | cons hd tl ih =>
    obtain ⟨k', v'⟩ := hd
    by_cases hk : k' = k
    · simp only [storeErase, if_pos hk, List.map_cons]
      exact List.sublist_cons_self _ _
    · simp only [storeErase, if_neg hk, List.map_cons]
      exact ih.cons₂ _

theorem nodup_keys_erase (st : Store) (k : String)
    (h : (st.map Prod.fst).Nodup) : ((storeErase st k).map Prod.fst).Nodup :=
  h.sublist (keys_erase_sublist st k)

theorem keys_insert (st : Store) (k : String) (v : SessionData) :
    (storeInsert st k v).map Prod.fst =
      if k ∈ st.map Prod.fst then st.map Prod.fst else st.map Prod.fst ++ [k] := by
  induction st with
  | nil => simp [storeInsert]
  | cons hd tl ih =>
    obtain ⟨k', v'⟩ := hd
    by_cases hk : k' = k
    · subst hk
      simp [storeInsert]
    · have hne : ¬ (k = k') := fun he => hk he.symm
      simp only [storeInsert, if_neg hk, List.map_cons, ih, List.mem_cons]
      by_cases hmem : k ∈ tl.map Prod.fst
      · simp [hmem, hne]
      · simp [hmem, hne]

theorem nodup_keys_insert (st : Store) (k : String) (v : SessionData)
    (h : (st.map Prod.fst).Nodup) : ((storeInsert st k v).map Prod.fst).Nodup := by
  rw [keys_insert]
  by_cases hmem : k ∈ st.map Prod.fst
  · simpa [hmem] using h
  · rw [if_neg hmem]
    exact h.append (List.nodup_singleton k) (by simpa using hmem)

theorem find_erase_self_of_nodup (st : Store) (k : String)
    (h : (st.map Prod.fst).Nodup) : storeFind (storeErase st k) k = none := by
  induction st with
  | nil => rfl
  | cons hd tl ih =>
    obtain ⟨k', v'⟩ := hd
    simp only [List.map_cons, List.nodup_cons] at h
    by_cases hk : k' = k
    · subst hk
      have he : storeErase ((k', v') :: tl) k' = tl := by simp [storeErase]
      rw [he]
      cases hf : storeFind tl k' with
      | none => rfl
      | some sd => exact absurd (find_mem_keys tl k' sd hf) h.1
    · simp only [storeErase, if_neg hk, storeFind, if_neg hk]
      exact ih h.2

theorem find_some_of_find_erase (st : Store) (k₀ k : String) (sd : SessionData)
    (hnd : (st.map Prod.fst).Nodup)
    (h : storeFind (storeErase st k₀) k = some sd) : storeFind st k = some sd := by
  by_cases hk : k₀ = k
  · subst hk
    rw [find_erase_self_of_nodup st k₀ hnd] at h
    exact absurd h (by simp)
  · rwa [find_erase_ne st k₀ k hk] at h

/-! ## Response-map lemmas -/

theorem lookup_upsert_self (rs : List (Int × String)) (i : Int) (u : String) :
    lookupResp (upsert rs i u) i = some u := by
  induction rs with
  | nil => simp [upsert, lookupResp]
  | cons hd tl ih =>
    obtain ⟨j, w⟩ := hd
    by_cases hj : j = i
    · subst hj
      simp [upsert, lookupResp]
    · simp only [upsert, if_neg hj, lookupResp, if_neg hj]
      exact ih

theorem lookup_upsert_ne (rs : List (Int × String)) (i j : Int) (u : String)
    (h : j ≠ i) : lookupResp (upsert rs i u) j = lookupResp rs j := by
  induction rs with
  | nil =>
    simp only [upsert, lookupResp]
    rw [if_neg (fun he : i = j => h he.symm)]
  | cons hd tl ih =>
    obtain ⟨j', w⟩ := hd
    by_cases hj : j' = i
    · subst hj
      simp only [upsert, if_pos rfl, lookupResp]
      rw [if_neg (fun he : j' = j => h he.symm), if_neg (fun he : j' = j => h he.symm)]
    · simp only [upsert, if_neg hj, lookupResp]
      by_cases hjj : j' = j
      · rw [if_pos hjj, if_pos hjj]
      · rw [if_neg hjj, if_neg hjj, ih]

/-! ## Finalization-loop lemmas -/

/-- A key the finalization loop body will not process: its session is absent,
already delivered, or holds no responses dict. -/
def sessionSettled (st : Store) (k : String) : Prop :=
  ∀ sd, storeFind st k = some sd → sd.verdict_delivered = true ∨ sd.responses = none

theorem finalizeStep_skip (o : OracleResult) (cd : CallData) (now : Nat) (phone : String)
    (acc : FinalizeOutcome) (k : String) (h : sessionSettled acc.store k) :
    finalizeStep o cd now phone acc k = acc := by
  rcases hf : storeFind acc.store k with _ | sd
  · simp [finalizeStep, hf]
  · rcases h sd hf with hd | hr
    · simp [finalizeStep, hf, hd]
    · cases hdel : sd.verdict_delivered
      · simp [finalizeStep, hf, hdel, hr]
      · simp [finalizeStep, hf, hdel]

theorem finalizeStep_cases (o : OracleResult) (cd : CallData) (now : Nat) (phone : String)
    (acc : FinalizeOutcome) (k : String) :
    (sessionSettled acc.store k ∧ finalizeStep o cd now phone acc k = acc) ∨
    ((finalizeStep o cd now phone acc k).store = storeErase acc.store k ∧
      ∃ sd, storeFind acc.store k = some sd ∧ sd.verdict_delivered = false) := by
  rcases hf : storeFind acc.store k with _ | sd
  · exact Or.inl ⟨(fun sd h => by rw [hf] at h; cases h), (by simp [finalizeStep, hf])⟩
  · cases hdel : sd.verdict_delivered
    · rcases hr : sd.responses with _ | rs
      · refine Or.inl ⟨(fun sd' h => ?_), (by simp [finalizeStep, hf, hdel, hr])⟩
        rw [hf] at h; injection h with h; subst h; exact Or.inr hr
      · refine Or.inr ⟨?_, sd, rfl, hdel⟩
        simp only [finalizeStep, hf, hdel]
        simp only [Bool.false_eq_true, if_false, hr]
        exact insert_erase_cancel acc.store k _ sd hf
    · refine Or.inl ⟨(fun sd' h => ?_), (by simp [finalizeStep, hf, hdel])⟩
      rw [hf] at h; injection h with h; subst h; exact Or.inl hdel

theorem fold_skip (o : OracleResult) (cd : CallData) (now : Nat) (phone : String)
    (keys : List String) (acc : FinalizeOutcome)
    (h : ∀ k ∈ keys, sessionSettled acc.store k) :
    keys.foldl (finalizeStep o cd now phone) acc = acc := by
  induction keys with
  | nil => rfl
  | cons k ks ih =>
    rw [List.foldl_cons, finalizeStep_skip o cd now phone acc k (h k (by simp))]
    exact ih (fun k' hk' => h k' (by simp [hk']))

theorem finalizeStep_nodup (o : OracleResult) (cd : CallData) (now : Nat) (phone : String)
    (acc : FinalizeOutcome) (k : String) (h : (acc.store.map Prod.fst).Nodup) :
    ((finalizeStep o cd now phone acc k).store.map Prod.fst).Nodup := by
  rcases finalizeStep_cases o cd now phone acc k with ⟨_, heq⟩ | ⟨heq, _⟩
  · rw [heq]; exact h
  · rw [heq]; exact nodup_keys_erase _ _ h

theorem fold_nodup (o : OracleResult) (cd : CallData) (now : Nat) (phone : String)
    (keys : List String) (acc : FinalizeOutcome) (h : (acc.store.map Prod.fst).Nodup) :
    (((keys.foldl (finalizeStep o cd now phone) acc).store).map Prod.fst).Nodup := by
  induction keys generalizing acc with
  | nil => exact h
  | cons k ks ih =>
    rw [List.foldl_cons]
    exact ih _ (finalizeStep_nodup o cd now phone acc k h)

theorem fold_find_delivered (o : OracleResult) (cd : CallData) (now : Nat) (phone : String)
    (keys : List String) (acc : FinalizeOutcome) (k : String) (sd : SessionData)
    (hf : storeFind acc.store k = some sd) (hd : sd.verdict_delivered = true) :
    storeFind ((keys.foldl (finalizeStep o cd now phone) acc).store) k = some sd := by
  induction keys generalizing acc with
  | nil => exact hf
  | cons k₀ ks ih =>
    rw [List.foldl_cons]
    apply ih
    rcases finalizeStep_cases o cd now phone acc k₀ with ⟨_, heq⟩ | ⟨heq, sd₀, hf₀, hd₀⟩
    · rw [heq]; exact hf
    · have hkk : k₀ ≠ k := by
        intro he; subst he
        rw [hf] at hf₀; injection hf₀ with he'; subst he'
        rw [hd] at hd₀; cases hd₀
      rw [heq, find_erase_ne _ _ _ hkk]
      exact hf

theorem mem_matchingKeys (st : Store) (phone k : String) (sd : SessionData)
    (hf : storeFind st k = some sd) (hm : keyMatches phone k = true) :
    k ∈ matchingKeys st phone :=
  List.mem_filter.mpr ⟨find_mem_keys st k sd hf, hm⟩

theorem fold_safe (o : OracleResult) (cd : CallData) (now : Nat) (phone : String)
    (keys : List String) (acc : FinalizeOutcome)
    (hnd : (acc.store.map Prod.fst).Nodup)
    (hinv : ∀ k sd, storeFind acc.store k = some sd → keyMatches phone k = true →
        sd.verdict_delivered = true ∨ sd.responses = none ∨ k ∈ keys) :
    ∀ k sd, storeFind ((keys.foldl (finalizeStep o cd now phone) acc).store) k = some sd →
      keyMatches phone k = true → sd.verdict_delivered = true ∨ sd.responses = none := by
  induction keys generalizing acc with
  | nil =>
    intro k sd hf hm
    rcases hinv k sd hf hm with h | h | h
    · exact Or.inl h
    · exact Or.inr h
    · cases h
  | cons k₀ ks ih =>
    rw [List.foldl_cons]
    rcases finalizeStep_cases o cd now phone acc k₀ with ⟨hset, heq⟩ | ⟨heq, sd₀, hf₀, hd₀⟩
    · rw [heq]
      apply ih acc hnd
      intro k sd hf hm
      rcases hinv k sd hf hm with h | h | h
      · exact Or.inl h
      · exact Or.inr (Or.inl h)
      · rcases List.mem_cons.mp h with he | he
        · subst he
          rcases hset sd hf with h' | h'
          · exact Or.inl h'
          · exact Or.inr (Or.inl h')
        · exact Or.inr (Or.inr he)
    · apply ih
      · rw [heq]; exact nodup_keys_erase _ _ hnd
      · intro k sd hf hm
        rw [heq] at hf
        have hne : k₀ ≠ k := by
          intro he; subst he
          rw [find_erase_self_of_nodup _ _ hnd] at hf
          cases hf
        rw [find_erase_ne _ _ _ hne] at hf
        rcases hinv k sd hf hm with h | h | h
        · exact Or.inl h
        · exact Or.inr (Or.inl h)
        · rcases List.mem_cons.mp h with he | he
          · exact absurd he.symm hne
          · exact Or.inr (Or.inr he)

/-! ## Controller lemmas -/

theorem handle_call_fst (st : Store) (app name stepRaw speech phone cs dg dcs : String) :
    (handle_call st app name stepRaw speech phone cs dg dcs).1 =
      (handle_call_core st app name stepRaw speech phone cs dg dcs).1 := by
  unfold handle_call
  rcases handle_call_core st app name stepRaw speech phone cs dg dcs with ⟨st', r⟩
  cases r <;> rfl

theorem recordResponse_mono (st st' : Store) (key name speech : String) (idx : Int)
    (k : String) (sd : SessionData)
    (hrec : recordResponse st key name speech idx = Except.ok st')
    (hf : storeFind st k = some sd) (hd : sd.verdict_delivered = true) :
    ∃ sd', storeFind st' k = some sd' ∧ sd'.verdict_delivered = true := by
  unfold recordResponse at hrec
  by_cases hsp : speech = ""
  · rw [if_pos hsp] at hrec
    injection hrec with h
    subst h
    exact ⟨sd, hf, hd⟩
  · rw [if_neg hsp] at hrec
    rcases hfk : storeFind st key with _ | sd₀
    · simp only [hfk] at hrec
      injection hrec with h
      subst h
      have hkk : key ≠ k := by
        intro he; subst he; rw [hf] at hfk; cases hfk
      rw [find_insert, if_neg hkk]
      exact ⟨sd, hf, hd⟩
    · simp only [hfk] at hrec
      rcases hr : sd₀.responses with _ | rs
      · simp only [hr] at hrec
        exact Except.noConfusion hrec
      · simp only [hr] at hrec
        injection hrec with h
        subst h
        by_cases hk : key = k
        · subst hk
          rw [hf] at hfk
          injection hfk with he
          subst he
          refine ⟨{ sd with responses := some (upsert rs idx speech) }, ?_, hd⟩
          rw [find_insert, if_pos rfl]
        · rw [find_insert, if_neg hk]
          exact ⟨sd, hf, hd⟩

theorem markDelivered_mono (st : Store) (key k : String) (sd : SessionData)
    (hf : storeFind st k = some sd) (hd : sd.verdict_delivered = true) :
    ∃ sd', storeFind (markDelivered st key) k = some sd' ∧ sd'.verdict_delivered = true := by
  unfold markDelivered
  rcases hfk : storeFind st key with _ | sd₀
  · exact ⟨sd, hf, hd⟩
  · by_cases hk : key = k
    · subst hk
      refine ⟨{ sd₀ with verdict_delivered := true, outro_played := true }, ?_, rfl⟩
      rw [find_insert, if_pos rfl]
    · rw [find_insert, if_neg hk]
      exact ⟨sd, hf, hd⟩

theorem handle_call_store_cases (st : Store) (app name stepRaw speech phone cs dg dcs : String) :
    (handle_call st app name stepRaw speech phone cs dg dcs).1 = st ∨
    ∃ st1 idx, recordResponse st (phone ++ "_" ++ app) name speech idx = Except.ok st1 ∧
      ((handle_call st app name stepRaw speech phone cs dg dcs).1 = st1 ∨
       (handle_call st app name stepRaw speech phone cs dg dcs).1 =
         markDelivered st1 (phone ++ "_" ++ app)) := by
  rw [handle_call_fst]
  unfold handle_call_core
  cases hp : parseIntPy stepRaw with
  | none => exact Or.inl rfl
  | some step =>
    simp only []
    by_cases h0 : step = 0
    · rw [if_pos h0]; exact Or.inl (by trivial)
    · rw [if_neg h0]
      by_cases h1 : step = 1
      · rw [if_pos h1]
        by_cases ha : isAffirmative speech
        · simp only [ha, if_true]
          cases pyListGet (questionsFor app) 0 with
          | none => exact Or.inl (by trivial)
          | some q0 => exact Or.inl (by trivial)
        · simp only [ha, Bool.false_eq_true, if_false]
          exact Or.inl (by trivial)
      · rw [if_neg h1]
        by_cases hlt : step < ((questionsFor app).length : Int) + 2
        · rw [if_pos hlt]
          cases hrec : recordResponse st (phone ++ "_" ++ app) name speech (step - 2) with
          | error e => exact Or.inl (by trivial)
          | ok st1 =>
            simp only []
            by_cases houtro : should_play_outro (questionsFor app) (step - 2) cs dg dcs
            · simp only [houtro, if_true]
              exact Or.inr ⟨st1, step - 2, hrec, Or.inr (by trivial)⟩
            · simp only [houtro, Bool.false_eq_true, if_false]
              cases pyListGet (questionsFor app) (step - 2) with
              | none => exact Or.inr ⟨st1, step - 2, hrec, Or.inl (by trivial)⟩
              | some q => exact Or.inr ⟨st1, step - 2, hrec, Or.inl (by trivial)⟩
        · rw [if_neg hlt]
          exact Or.inl (by trivial)

theorem handle_call_mono (st : Store) (app name stepRaw speech phone cs dg dcs : String)
    (k : String) (sd : SessionData)
    (hf : storeFind st k = some sd) (hd : sd.verdict_delivered = true) :
    ∃ sd', storeFind (handle_call st app name stepRaw speech phone cs dg dcs).1 k = some sd' ∧
      sd'.verdict_delivered = true := by
  rcases handle_call_store_cases st app name stepRaw speech phone cs dg dcs with
    heq | ⟨st1, idx, hrec, heq | heq⟩
  · rw [heq]; exact ⟨sd, hf, hd⟩
  · rw [heq]
    exact recordResponse_mono st st1 _ name speech idx k sd hrec hf hd
  · rw [heq]
    obtain ⟨sd1, hf1, hd1⟩ :=
      recordResponse_mono st st1 _ name speech idx k sd hrec hf hd
    exact markDelivered_mono st1 _ k sd1 hf1 hd1

/-! ## Branch-evaluation lemmas for the controller -/

theorem core_step1_affirmative (st : Store) (app name stepRaw speech phone cs dg dcs q0 : String)
    (hp : parseIntPy stepRaw = some 1) (ha : isAffirmative speech = true)
    (hq : pyListGet (questionsFor app) 0 = some q0) :
    handle_call st app name stepRaw speech phone cs dg dcs =
      (st, [Verb.say (transitionLine (displayType app)), Verb.pause 1,
            Verb.gather ⟨app, name, 2, phone⟩ [q0]]) := by
  unfold handle_call handle_call_core
  simp only [hp, ha, hq, if_true]
  norm_num

theorem core_step1_negative (st : Store) (app name stepRaw speech phone cs dg dcs : String)
    (hp : parseIntPy stepRaw = some 1) (ha : isAffirmative speech = false) :
    handle_call st app name stepRaw speech phone cs dg dcs =
      (st, [Verb.say declineLine, Verb.hangup]) := by
  unfold handle_call handle_call_core
  simp only [hp, ha, Bool.false_eq_true, if_false]
  norm_num

theorem core_question_continue (st : Store) (app name stepRaw speech phone cs dg dcs : String)
    (step : Int) (st1 : Store) (q : String)
    (hp : parseIntPy stepRaw = some step)
    (h0 : ¬ step = 0) (h1 : ¬ step = 1)
    (hlt : step < ((questionsFor app).length : Int) + 2)
    (hrec : recordResponse st (phone ++ "_" ++ app) name speech (step - 2) = Except.ok st1)
    (houtro : should_play_outro (questionsFor app) (step - 2) cs dg dcs = false)
    (hq : pyListGet (questionsFor app) (step - 2) = some q) :
    handle_call st app name stepRaw speech phone cs dg dcs =
      (st1, [Verb.gather ⟨app, name, step + 1, phone⟩ [q]]) := by
  unfold handle_call handle_call_core
  simp only [hp, if_neg h0, if_neg h1, if_pos hlt, hrec, houtro, Bool.false_eq_true, if_false, hq]

theorem core_question_outro (st : Store) (app name stepRaw speech phone cs dg dcs : String)
    (step : Int) (st1 : Store)
    (hp : parseIntPy stepRaw = some step)
    (h0 : ¬ step = 0) (h1 : ¬ step = 1)
    (hlt : step < ((questionsFor app).length : Int) + 2)
    (hrec : recordResponse st (phone ++ "_" ++ app) name speech (step - 2) = Except.ok st1)
    (houtro : should_play_outro (questionsFor app) (step - 2) cs dg dcs = true) :
    handle_call st app name stepRaw speech phone cs dg dcs =
      (markDelivered st1 (phone ++ "_" ++ app),
       [Verb.say outroThanksLine, Verb.pause 1, Verb.say outroReachLine, Verb.hangup]) := by
  unfold handle_call handle_call_core
  simp only [hp, if_neg h0, if_neg h1, if_pos hlt, hrec, houtro, if_true]

theorem core_step_out_of_range (st : Store) (app name stepRaw speech phone cs dg dcs : String)
    (step : Int)
    (hp : parseIntPy stepRaw = some step)
    (h0 : ¬ step = 0) (h1 : ¬ step = 1)
    (hge : ¬ step < ((questionsFor app).length : Int) + 2) :
    handle_call st app name stepRaw speech phone cs dg dcs = (st, []) := by
  unfold handle_call handle_call_core
  simp only [hp, if_neg h0, if_neg h1, if_neg hge]

/-! ## Key-matching and singleton-finalization helpers -/

theorem strStartsWith_append (s t u : String) : strStartsWith (s ++ t ++ u) s = true := by
  unfold strStartsWith
  rw [String.data_append, String.data_append]
  exact List.isPrefixOf_iff_prefix.mpr
    ((List.prefix_append s.data t.data).trans (List.prefix_append _ u.data))

theorem matchingKeys_singleton (phone app : String) (sd : SessionData) :
    matchingKeys [(phone ++ "_" ++ app, sd)] phone = [phone ++ "_" ++ app] := by
  unfold matchingKeys keyMatches
  simp [strStartsWith_append]

theorem finalize_singleton (phone app name : String) (rs : List (Int × String))
    (cd : CallData) (o : OracleResult) (now : Nat) :
    process_incomplete_application
        [(phone ++ "_" ++ app, { responses := some rs, customer_name := some name })]
        phone cd o now =
      ⟨[],
       [{ customer_name := name, phone_number := phone,
          application_type :=
            if (if strContains (phone ++ "_" ++ app) "_"
                then secondUnderscorePart (phone ++ "_" ++ app) else "unknown") = "credit_card"
            then "Credit Card" else "Loan",
          verdict :=
            if (if strContains (phone ++ "_" ++ app) "_"
                then secondUnderscorePart (phone ++ "_" ++ app) else "unknown") = "credit_card"
            then evaluate_cc_application o else evaluate_loan_application o,
          comments :=
            verdictComments
              (if (if strContains (phone ++ "_" ++ app) "_"
                   then secondUnderscorePart (phone ++ "_" ++ app) else "unknown") = "credit_card"
               then evaluate_cc_application o else evaluate_loan_application o)
              ++ durationComments cd,
          timestamp := now,
          call_duration := cd.callDuration,
          call_status := cd.callStatus }],
       1⟩ := by
  unfold process_incomplete_application
  rw [matchingKeys_singleton]
  simp only [List.foldl_cons, List.foldl_nil]
  unfold finalizeStep
  simp [storeFind, storeInsert, storeErase]

/-! ## Claim theorems -/

/-- Claim C3: at step 1 the controller classifies the utterance as affirmative
iff it case-insensitively contains one of the keywords "yes", "okay", "sure",
"go ahead"; the affirmative utterance "Yes sure" yields the transition line,
the first catalog question and a Listen with step 2, while the non-matching
utterance "no thanks" yields the decline line followed by Hangup, with no
Listen and with the store untouched. -/
theorem C3_step1_consent :
    (∀ u : String, isAffirmative u = true ↔
        ∃ w ∈ consentKeywords, strContains (pyLower u) w = true)
    ∧ (∀ (st : Store) (name phone : String),
        handle_call st "loan" name "1" "Yes sure" phone "" "" "" =
          (st, [Verb.say (transitionLine "loan"), Verb.pause 1,
                Verb.gather ⟨"loan", name, 2, phone⟩ ["What is your current age?"]]))
    ∧ (∀ (st : Store) (name phone : String),
        handle_call st "loan" name "1" "no thanks" phone "" "" "" =
          (st, [Verb.say declineLine, Verb.hangup])) := by
  refine ⟨?_, ?_, ?_⟩
  · intro u
    constructor
    · intro h
      unfold isAffirmative at h
      by_cases hu : u = ""
      · rw [if_pos hu] at h; cases h
      · rw [if_neg hu] at h
        exact List.any_eq_true.mp h
    · intro h
      unfold isAffirmative
      by_cases hu : u = ""
      · exfalso
        obtain ⟨w, hw, hc⟩ := h
        subst hu
        have hfalse : ∀ w ∈ consentKeywords, strContains (pyLower "") w = false := by decide
        rw [hfalse w hw] at hc
        cases hc
      · rw [if_neg hu]
        exact List.any_eq_true.mpr h
  · intro st name phone
    exact core_step1_affirmative st "loan" name "1" "Yes sure" phone "" "" ""
      "What is your current age?" (by decide) (by decide) (by decide)
  · intro st name phone
    exact core_step1_negative st "loan" name "1" "no thanks" phone "" "" ""
      (by decide) (by decide)

/-- Claim C2 (counterexample): at step 2 with utterance "I am 29 years old"
and application type loan, the controller records `responses[0]` and listens
with step 3, but the question it speaks is `questions[0]` ("What is your
current age?") again, not `questions[1]` as the claim states. -/
theorem C2_counterexample :
    handle_call [] "loan" "Asha" "2" "I am 29 years old" "+919999999999" "" "" "" =
      ([("+919999999999_loan",
         { responses := some [(0, "I am 29 years old")], customer_name := some "Asha" })],
       [Verb.gather ⟨"loan", "Asha", 3, "+919999999999"⟩ ["What is your current age?"]])
    ∧ generate_loan_questions.get? 1 = some "What is your monthly income in Indian Rupees?"
    ∧ ("What is your current age?" : String) ≠ "What is your monthly income in Indian Rupees?" :=
  ⟨by decide, by decide, by decide⟩

/-- Claim C2 (amended): an utterance arriving at step N (N ≥ 2, before the
outro boundary) is recorded at `responses[N-2]` — exactly one question index,
overwriting any previous value at that index and leaving all other indices
unchanged — and the directive speaks `questions[N-2]` (so at step 2 the first
question is asked again) and listens with step N+1. -/
theorem C2_amended_step_attribution (st : Store)
    (app name stepRaw speech phone cs dg dcs : String) (n : Int) (q : String)
    (hp : parseIntPy stepRaw = some n) (h2 : 2 ≤ n)
    (houtro : should_play_outro (questionsFor app) (n - 2) cs dg dcs = false)
    (hsp : ¬ speech = "")
    (hq : pyListGet (questionsFor app) (n - 2) = some q) :
    (storeFind st (phone ++ "_" ++ app) = none →
      handle_call st app name stepRaw speech phone cs dg dcs =
        (storeInsert st (phone ++ "_" ++ app)
           { responses := some [(n - 2, speech)], customer_name := some name },
         [Verb.gather ⟨app, name, n + 1, phone⟩ [q]]))
    ∧ (∀ sd rs, storeFind st (phone ++ "_" ++ app) = some sd → sd.responses = some rs →
        handle_call st app name stepRaw speech phone cs dg dcs =
          (storeInsert st (phone ++ "_" ++ app)
             { sd with responses := some (upsert rs (n - 2) speech) },
           [Verb.gather ⟨app, name, n + 1, phone⟩ [q]]))
    ∧ (∀ (rs : List (Int × String)) (u : String),
        lookupResp (upsert rs (n - 2) u) (n - 2) = some u)
    ∧ (∀ (rs : List (Int × String)) (u : String) (j : Int), j ≠ n - 2 →
        lookupResp (upsert rs (n - 2) u) j = lookupResp rs j) := by
  have h0 : ¬ n = 0 := by omega
  have h1 : ¬ n = 1 := by omega
  have hlen : ¬ ((questionsFor app).length : Int) - 1 ≤ n - 2 := by
    intro hle
    unfold should_play_outro at houtro
    simp only [Bool.or_eq_false_iff, decide_eq_false_iff_not] at houtro
    exact houtro.1.1.1 hle
  have hlt : n < ((questionsFor app).length : Int) + 2 := by omega
  refine ⟨?_, ?_, ?_, ?_⟩
  · intro hfind
    have hrec : recordResponse st (phone ++ "_" ++ app) name speech (n - 2) =
        Except.ok (storeInsert st (phone ++ "_" ++ app)
          { responses := some [(n - 2, speech)], customer_name := some name }) := by
      unfold recordResponse
      rw [if_neg hsp]
      simp only [hfind]
    exact core_question_continue st app name stepRaw speech phone cs dg dcs n _ q
      hp h0 h1 hlt hrec houtro hq
  · intro sd rs hfind hr
    have hrec : recordResponse st (phone ++ "_" ++ app) name speech (n - 2) =
        Except.ok (storeInsert st (phone ++ "_" ++ app)
          { sd with responses := some (upsert rs (n - 2) speech) }) := by
      unfold recordResponse
      rw [if_neg hsp]
      simp only [hfind, hr]
    exact core_question_continue st app name stepRaw speech phone cs dg dcs n _ q
      hp h0 h1 hlt hrec houtro hq
  · intro rs u
    exact lookup_upsert_self rs (n - 2) u
  · intro rs u j hj
    exact lookup_upsert_ne rs (n - 2) j u hj

/-- Claim C10: a controller invocation whose step is at least
`len(questions) + 2` matches no branch of the state machine: the handler
returns an empty voice response (no Speak, no Listen, no Hangup) and leaves
the session store unchanged. -/
theorem C10_out_of_range_step (st : Store)
    (app name stepRaw speech phone cs dg dcs : String) (n : Int)
    (hp : parseIntPy stepRaw = some n)
    (hge : ((questionsFor app).length : Int) + 2 ≤ n) :
    handle_call st app name stepRaw speech phone cs dg dcs = (st, []) := by
  have h0 : ¬ n = 0 := by omega
  have h1 : ¬ n = 1 := by omega
  have hlt : ¬ n < ((questionsFor app).length : Int) + 2 := by omega
  exact core_step_out_of_range st app name stepRaw speech phone cs dg dcs n hp h0 h1 hlt

/-- Claim C7: whenever the controller body raises an exception, the
outermost handler of the webhook route catches it and returns the generic
apology line followed by Hangup — never an error or an empty document. -/
theorem C7_exception_to_apology (st : Store)
    (app name stepRaw speech phone cs dg dcs e : String)
    (h : (handle_call_core st app name stepRaw speech phone cs dg dcs).2 = Except.error e) :
    (handle_call st app name stepRaw speech phone cs dg dcs).2 =
      [Verb.say apologyLine, Verb.hangup] := by
  unfold handle_call
  rcases hc : handle_call_core st app name stepRaw speech phone cs dg dcs with ⟨st', r⟩
  rw [hc] at h
  cases r with
  | ok vs => exact Except.noConfusion h
  | error e2 => rfl

/-- Witness for the amended claim C2 at Scenario C's input: step 2, loan,
utterance "I am 29 years old", fresh session. -/
theorem C2_amended_step_attribution_witness :
    handle_call [] "loan" "Asha" "2" "I am 29 years old" "+919999999999" "" "" "" =
      (storeInsert [] ("+919999999999" ++ "_" ++ "loan")
         { responses := some [((2 : Int) - 2, "I am 29 years old")],
           customer_name := some "Asha" },
       [Verb.gather ⟨"loan", "Asha", (2 : Int) + 1, "+919999999999"⟩
          ["What is your current age?"]]) :=
  (C2_amended_step_attribution [] "loan" "Asha" "2" "I am 29 years old" "+919999999999"
      "" "" "" 2 "What is your current age?"
      (by decide) (by decide) (by decide) (by decide) (by decide)).1 (by decide)

/-- Witness for claim C10: step 12 on the loan catalog (10 questions). -/
theorem C10_out_of_range_step_witness :
    handle_call [] "loan" "Asha" "12" "hello" "+919999999999" "" "" "" = ([], []) :=
  C10_out_of_range_step [] "loan" "Asha" "12" "hello" "+919999999999" "" "" "" 12
    (by decide) (by decide)

/-- Witness for claim C7: a non-numeric step parameter raises inside the
controller and the route answers with the apology document. -/
theorem C7_exception_to_apology_witness :
    (handle_call [] "loan" "Asha" "abc" "" "+919999999999" "" "" "").2 =
      [Verb.say apologyLine, Verb.hangup] :=
  C7_exception_to_apology [] "loan" "Asha" "abc" "" "+919999999999" "" "" ""
    "invalid literal for int() with base 10" (by rfl)

/-- Claim C6: with no session for the key, initiation succeeds, seeds the
session and places one call; with a session younger than the 30-second
cooldown it returns the conflict carrying the existing call sid, changes
nothing and places no call; with an older session it silently replaces the
session and places a new call. -/
theorem C6_initiate_cooldown (st : Store) (app phone name sid : String) (now : Nat) :
    (storeFind st phone = none →
      initiate_automated_call st app phone name now sid =
        ⟨InitiateResult.success sid,
         storeInsert st phone (freshSession sid now name app), [sid]⟩)
    ∧ (∀ sd t sid₀, storeFind st phone = some sd → sd.timestamp = some t →
        sd.call_sid = some sid₀ → now - t < 30 →
        initiate_automated_call st app phone name now sid =
          ⟨InitiateResult.conflict sid₀, st, []⟩)
    ∧ (∀ sd t, storeFind st phone = some sd → sd.timestamp = some t →
        30 ≤ now - t →
        initiate_automated_call st app phone name now sid =
          ⟨InitiateResult.success sid,
           storeInsert (storeErase st phone) phone (freshSession sid now name app),
           [sid]⟩) := by
  refine ⟨?_, ?_, ?_⟩
  · intro hfind
    unfold initiate_automated_call
    simp only [hfind]
  · intro sd t sid₀ hfind ht hsid hlt
    unfold initiate_automated_call
    simp only [hfind, ht, hsid, if_pos hlt]
  · intro sd t hfind ht hge
    have hlt : ¬ now - t < 30 := by omega
    unfold initiate_automated_call
    simp only [hfind, ht, if_neg hlt]

/-- Witness for claim C6: all three branches at concrete stores and times. -/
theorem C6_initiate_cooldown_witness :
    (initiate_automated_call [] "loan" "+919999999999" "Asha" 0 "CA123" =
      ⟨InitiateResult.success "CA123",
       storeInsert [] "+919999999999" (freshSession "CA123" 0 "Asha" "loan"), ["CA123"]⟩)
    ∧ (initiate_automated_call [("+919999999999", freshSession "CA123" 0 "Asha" "loan")]
          "loan" "+919999999999" "Asha" 10 "CA456" =
        ⟨InitiateResult.conflict "CA123",
         [("+919999999999", freshSession "CA123" 0 "Asha" "loan")], []⟩)
    ∧ (initiate_automated_call [("+919999999999", freshSession "CA123" 0 "Asha" "loan")]
          "loan" "+919999999999" "Asha" 50 "CA456" =
        ⟨InitiateResult.success "CA456",
         storeInsert (storeErase [("+919999999999", freshSession "CA123" 0 "Asha" "loan")]
            "+919999999999") "+919999999999" (freshSession "CA456" 50 "Asha" "loan"),
         ["CA456"]⟩) :=
  ⟨(C6_initiate_cooldown [] "loan" "+919999999999" "Asha" "CA123" 0).1 (by decide),
   (C6_initiate_cooldown [("+919999999999", freshSession "CA123" 0 "Asha" "loan")]
      "loan" "+919999999999" "Asha" "CA456" 10).2.1
      (freshSession "CA123" 0 "Asha" "loan") 0 "CA123" (by decide) (by decide)
      (by decide) (by decide),
   (C6_initiate_cooldown [("+919999999999", freshSession "CA123" 0 "Asha" "loan")]
      "loan" "+919999999999" "Asha" "CA456" 50).2.2
      (freshSession "CA123" 0 "Asha" "loan") 0 (by decide) (by decide) (by decide)⟩

/-- Claim C1: finalization is idempotent.  (i) If every session matching the
key is absent, already delivered, or without responses, finalization makes
no decision-service call, persists nothing and leaves the store unchanged;
(ii) finalization never resets a `verdict_delivered = true` session — it is
left in the store untouched; (iii) the controller likewise never resets the
flag of any stored session; (iv)/(v) a second sequential finalization of the
same key persists no record and makes no decision-service call, so two
sequential finalizations produce at most one persisted record. -/
theorem C1_finalization_idempotent (st : Store) (phone : String)
    (cd cd' : CallData) (o o' : OracleResult) (now now' : Nat)
    (hnd : (st.map Prod.fst).Nodup) :
    ((∀ k sd, storeFind st k = some sd → keyMatches phone k = true →
        sd.verdict_delivered = true ∨ sd.responses = none) →
      process_incomplete_application st phone cd o now = ⟨st, [], 0⟩)
    ∧ (∀ k sd, storeFind st k = some sd → sd.verdict_delivered = true →
        storeFind (process_incomplete_application st phone cd o now).store k = some sd)
    ∧ (∀ (app name stepRaw speech ph cs dg dcs k : String) (sd : SessionData),
        storeFind st k = some sd → sd.verdict_delivered = true →
        ∃ sd', storeFind (handle_call st app name stepRaw speech ph cs dg dcs).1 k = some sd'
          ∧ sd'.verdict_delivered = true)
    ∧ (process_incomplete_application
        (process_incomplete_application st phone cd o now).store phone cd' o' now').records = []
    ∧ (process_incomplete_application
        (process_incomplete_application st phone cd o now).store phone cd' o' now').decisionCalls
        = 0 := by
  have hsafe : ∀ k sd,
      storeFind (process_incomplete_application st phone cd o now).store k = some sd →
      keyMatches phone k = true → sd.verdict_delivered = true ∨ sd.responses = none := by
    unfold process_incomplete_application
    exact fold_safe o cd now phone (matchingKeys st phone) ⟨st, [], 0⟩ hnd
      (fun k sd hf hm => Or.inr (Or.inr (mem_matchingKeys st phone k sd hf hm)))
  have hsecond : process_incomplete_application
      (process_incomplete_application st phone cd o now).store phone cd' o' now' =
      ⟨(process_incomplete_application st phone cd o now).store, [], 0⟩ := by
    unfold process_incomplete_application
    exact fold_skip o' cd' now' phone _ _
      (fun k hk sd hf => hsafe k sd hf (List.mem_filter.mp hk).2)
  refine ⟨?_, ?_, ?_, ?_, ?_⟩
  · intro h
    unfold process_incomplete_application
    exact fold_skip o cd now phone _ _
      (fun k hk sd hf => h k sd hf (List.mem_filter.mp hk).2)
  · intro k sd hf hd
    unfold process_incomplete_application
    exact fold_find_delivered o cd now phone (matchingKeys st phone) ⟨st, [], 0⟩ k sd hf hd
  · intro app name stepRaw speech ph cs dg dcs k sd hf hd
    exact handle_call_mono st app name stepRaw speech ph cs dg dcs k sd hf hd
  · rw [hsecond]
  · rw [hsecond]

/-- Witness for claim C1: a store holding one delivered session for the key;
finalizing changes nothing, a second finalization persists nothing, and both
mutators keep the flag set. -/
theorem C1_finalization_idempotent_witness :
    (process_incomplete_application
        [("+919999999999_loan",
          { responses := some [((0 : Int), "29")], customer_name := some "Asha",
            verdict_delivered := true })]
        "+919999999999" {} OracleResult.transportFailure 3 =
      ⟨[("+919999999999_loan",
         { responses := some [((0 : Int), "29")], customer_name := some "Asha",
           verdict_delivered := true })], [], 0⟩)
    ∧ (process_incomplete_application
        (process_incomplete_application
          [("+919999999999_loan",
            { responses := some [((0 : Int), "29")], customer_name := some "Asha",
              verdict_delivered := true })]
          "+919999999999" {} OracleResult.transportFailure 3).store
        "+919999999999" {} OracleResult.transportFailure 4).records = [] :=
  ⟨(C1_finalization_idempotent
      [("+919999999999_loan",
        { responses := some [((0 : Int), "29")], customer_name := some "Asha",
          verdict_delivered := true })]
      "+919999999999" {} {} OracleResult.transportFailure OracleResult.transportFailure 3 4
      (by decide)).1
      (by
        intro k sd hf hm
        simp only [storeFind] at hf
        by_cases hk : "+919999999999_loan" = k
        · rw [if_pos hk] at hf
          injection hf with hf
          subst hf
          exact Or.inl rfl
        · rw [if_neg hk] at hf
          cases hf),
   (C1_finalization_idempotent
      [("+919999999999_loan",
        { responses := some [((0 : Int), "29")], customer_name := some "Asha",
          verdict_delivered := true })]
      "+919999999999" {} {} OracleResult.transportFailure OracleResult.transportFailure 3 4
      (by decide)).2.2.2.1⟩

/-- Claim C4 (counterexample): a session with a single recorded response
(fewer than 5) is nevertheless evaluated — finalization makes one
decision-service call and persists one record; no minimum-answer threshold
exists in the code. -/
theorem C4_counterexample :
    ((([((0 : Int), "I am 29 years old")] : List (Int × String)).length < 5)
    ∧ (process_incomplete_application
        [("+919999999999_loan",
          { responses := some [((0 : Int), "I am 29 years old")],
            customer_name := some "Asha" })]
        "+919999999999" {} OracleResult.transportFailure 0).decisionCalls = 1
    ∧ (process_incomplete_application
        [("+919999999999_loan",
          { responses := some [((0 : Int), "I am 29 years old")],
            customer_name := some "Asha" })]
        "+919999999999" {} OracleResult.transportFailure 0).records.length = 1) :=
  ⟨by decide, by decide, by decide⟩

/-- Claim C4 (amended): for a session with recorded responses — in
particular fewer than 5 — finalization always invokes the decision service
once, persists one record, and clears the session from the store; the code
has no minimum-response threshold. -/
theorem C4_amended_no_threshold (phone app name : String) (rs : List (Int × String))
    (cd : CallData) (o : OracleResult) (now : Nat) (_hlen : rs.length < 5) :
    (process_incomplete_application
        [(phone ++ "_" ++ app, { responses := some rs, customer_name := some name })]
        phone cd o now).decisionCalls = 1
    ∧ (process_incomplete_application
        [(phone ++ "_" ++ app, { responses := some rs, customer_name := some name })]
        phone cd o now).records.length = 1
    ∧ (process_incomplete_application
        [(phone ++ "_" ++ app, { responses := some rs, customer_name := some name })]
        phone cd o now).store = [] := by
  rw [finalize_singleton phone app name rs cd o now]
  exact ⟨rfl, rfl, rfl⟩

/-- Witness for the amended claim C4: one recorded response. -/
theorem C4_amended_no_threshold_witness :
    (process_incomplete_application
        [("+919999999999" ++ "_" ++ "loan",
          { responses := some [((0 : Int), "I am 29 years old")],
            customer_name := some "Asha" })]
        "+919999999999" {} OracleResult.transportFailure 0).decisionCalls = 1 :=
  (C4_amended_no_threshold "+919999999999" "loan" "Asha" [((0 : Int), "I am 29 years old")]
    {} OracleResult.transportFailure 0 (by decide)).1

/-- Claim C5 (counterexample): a decision-service output outside the
three-token vocabulary — here "MAYBE" — is persisted verbatim in the
record's decision field; it is not mapped to INVESTIGATION_REQUIRED. -/
theorem C5_counterexample :
    ((process_incomplete_application
        [("+919999999999_loan",
          { responses := some [((0 : Int), "29")], customer_name := some "Asha" })]
        "+919999999999" {} (OracleResult.output "MAYBE") 0).records.map RecordData.verdict
      = ["MAYBE"])
    ∧ ("MAYBE" : String) ≠ "YES"
    ∧ ("MAYBE" : String) ≠ "NO"
    ∧ ("MAYBE" : String) ≠ "INVESTIGATION_REQUIRED" :=
  ⟨by decide, by decide, by decide, by decide⟩

/-- Claim C5 (amended): a transport failure of the decision-service call is
mapped to INVESTIGATION_REQUIRED by the evaluators' exception handlers, but
any non-failure output is persisted verbatim (stripped), so an
out-of-vocabulary model output reaches the persisted record unchanged. -/
theorem C5_amended_verdict_mapping (phone app name : String) (rs : List (Int × String))
    (cd : CallData) (now : Nat) (o : OracleResult) :
    ((process_incomplete_application
        [(phone ++ "_" ++ app, { responses := some rs, customer_name := some name })]
        phone cd o now).records.map RecordData.verdict =
      [match o with
       | OracleResult.transportFailure => "INVESTIGATION_REQUIRED"
       | OracleResult.output s => pyStrip s])
    ∧ evaluate_loan_application OracleResult.transportFailure = "INVESTIGATION_REQUIRED"
    ∧ evaluate_cc_application OracleResult.transportFailure = "INVESTIGATION_REQUIRED"
    ∧ (∀ s, evaluate_loan_application (OracleResult.output s) = pyStrip s)
    ∧ (∀ s, evaluate_cc_application (OracleResult.output s) = pyStrip s) := by
  refine ⟨?_, rfl, rfl, fun s => rfl, fun s => rfl⟩
  rw [finalize_singleton phone app name rs cd o now]
  simp only [List.map_cons, List.map_nil]
  cases o with
  | transportFailure => simp [evaluate_cc_application, evaluate_loan_application]
  | output s => simp [evaluate_cc_application, evaluate_loan_application]

/-- Witness for the amended claim C5: transport failure at a concrete
session yields INVESTIGATION_REQUIRED in the persisted record. -/
theorem C5_amended_verdict_mapping_witness :
    (process_incomplete_application
        [("+919999999999" ++ "_" ++ "loan",
          { responses := some [((0 : Int), "29")], customer_name := some "Asha" })]
        "+919999999999" {} OracleResult.transportFailure 0).records.map RecordData.verdict
      = ["INVESTIGATION_REQUIRED"] := by
  have h := (C5_amended_verdict_mapping "+919999999999" "loan" "Asha" [((0 : Int), "29")]
    {} 0 OracleResult.transportFailure).1
  exact h

/-- Claim C8 (counterexample): on the controller trigger path (last-question
boundary, step 11 on the loan catalog) the outro branch completes, sets
`verdict_delivered`, and the session is still in the store afterwards — it
is not deleted, so a live session remains for the key. -/
theorem C8_counterexample :
    (handle_call
        [("+919999999999_loan",
          { responses := some [((0 : Int), "29")], customer_name := some "Asha" })]
        "loan" "Asha" "11" "" "+919999999999" "" "" "" =
      ([("+919999999999_loan",
         { responses := some [((0 : Int), "29")], customer_name := some "Asha",
           verdict_delivered := true, outro_played := true })],
       [Verb.say outroThanksLine, Verb.pause 1, Verb.say outroReachLine, Verb.hangup]))
    ∧ storeFind
        (handle_call
          [("+919999999999_loan",
            { responses := some [((0 : Int), "29")], customer_name := some "Asha" })]
          "loan" "Asha" "11" "" "+919999999999" "" "" "").1 "+919999999999_loan" ≠ none :=
  ⟨by decide, by decide⟩

/-- Claim C8 (amended): the two finalization paths behave asymmetrically.
The controller outro path marks the stored session `verdict_delivered = true`
and `outro_played = true` but leaves it in the store; the call-status path
(`process_incomplete_application`) persists a record and deletes the session
without ever setting `verdict_delivered`, and only after that path does no
session remain for the processed key. -/
theorem C8_amended_finalization_paths (st : Store)
    (app name stepRaw phone cs dg dcs : String) (n : Int) (sd : SessionData)
    (phone2 app2 name2 : String) (rs : List (Int × String)) (cd : CallData)
    (o : OracleResult) (now : Nat)
    (hp : parseIntPy stepRaw = some n) (h0 : ¬ n = 0) (h1 : ¬ n = 1)
    (hlt : n < ((questionsFor app).length : Int) + 2)
    (houtro : should_play_outro (questionsFor app) (n - 2) cs dg dcs = true)
    (hfind : storeFind st (phone ++ "_" ++ app) = some sd) :
    (handle_call st app name stepRaw "" phone cs dg dcs =
      (storeInsert st (phone ++ "_" ++ app)
         { sd with verdict_delivered := true, outro_played := true },
       [Verb.say outroThanksLine, Verb.pause 1, Verb.say outroReachLine, Verb.hangup]))
    ∧ (storeFind (handle_call st app name stepRaw "" phone cs dg dcs).1
        (phone ++ "_" ++ app) =
        some { sd with verdict_delivered := true, outro_played := true })
    ∧ ((process_incomplete_application
          [(phone2 ++ "_" ++ app2, { responses := some rs, customer_name := some name2 })]
          phone2 cd o now).store = [])
    ∧ ((process_incomplete_application
          [(phone2 ++ "_" ++ app2, { responses := some rs, customer_name := some name2 })]
          phone2 cd o now).records.length = 1) := by
  have hrec : recordResponse st (phone ++ "_" ++ app) name "" (n - 2) = Except.ok st := by
    unfold recordResponse
    rw [if_pos rfl]
  have h := core_question_outro st app name stepRaw "" phone cs dg dcs n st
    hp h0 h1 hlt hrec houtro
  have hmark : markDelivered st (phone ++ "_" ++ app) =
      storeInsert st (phone ++ "_" ++ app)
        { sd with verdict_delivered := true, outro_played := true } := by
    unfold markDelivered
    simp only [hfind]
  refine ⟨?_, ?_, ?_, ?_⟩
  · rw [h, hmark]
  · rw [h]
    simp only [hmark]
    rw [find_insert, if_pos rfl]
  · rw [finalize_singleton phone2 app2 name2 rs cd o now]
  · rw [finalize_singleton phone2 app2 name2 rs cd o now]
    rfl

/-- Witness for the amended claim C8 at concrete inputs: step 11 on a stored
loan session, and a status-path finalization of another session. -/
theorem C8_amended_finalization_paths_witness :
    (handle_call
        [("+919999999999" ++ "_" ++ "loan",
          { responses := some [((0 : Int), "29")], customer_name := some "Asha" })]
        "loan" "Asha" "11" "" "+919999999999" "" "" "" =
      (storeInsert
         [("+919999999999" ++ "_" ++ "loan",
           { responses := some [((0 : Int), "29")], customer_name := some "Asha" })]
         ("+919999999999" ++ "_" ++ "loan")
         { responses := some [((0 : Int), "29")], customer_name := some "Asha",
           verdict_delivered := true, outro_played := true },
       [Verb.say outroThanksLine, Verb.pause 1, Verb.say outroReachLine, Verb.hangup]))
    ∧ ((process_incomplete_application
          [("+918888888888" ++ "_" ++ "loan",
            { responses := some [((0 : Int), "35")], customer_name := some "Ravi" })]
          "+918888888888" {} OracleResult.transportFailure 5).store = []) := by
  have h := C8_amended_finalization_paths
    [("+919999999999" ++ "_" ++ "loan",
      { responses := some [((0 : Int), "29")], customer_name := some "Asha" })]
    "loan" "Asha" "11" "+919999999999" "" "" "" 11
    { responses := some [((0 : Int), "29")], customer_name := some "Asha" }
    "+918888888888" "loan" "Ravi" [((0 : Int), "35")] {} OracleResult.transportFailure 5
    (by decide) (by decide) (by decide) (by decide) (by decide) (by decide)
  exact ⟨h.1, h.2.2.1⟩

/-! ## Key-uniqueness preservation -/

theorem recordResponse_nodup (st st1 : Store) (key name speech : String) (idx : Int)
    (hrec : recordResponse st key name speech idx = Except.ok st1)
    (hnd : (st.map Prod.fst).Nodup) : (st1.map Prod.fst).Nodup := by
  unfold recordResponse at hrec
  by_cases hsp : speech = ""
  · rw [if_pos hsp] at hrec
    injection hrec with h
    subst h
    exact hnd
  · rw [if_neg hsp] at hrec
    rcases hfk : storeFind st key with _ | sd₀
    · simp only [hfk] at hrec
      injection hrec with h
      subst h
      exact nodup_keys_insert st key _ hnd
    · simp only [hfk] at hrec
      rcases hr : sd₀.responses with _ | rs
      · simp only [hr] at hrec
        exact Except.noConfusion hrec
      · simp only [hr] at hrec
        injection hrec with h
        subst h
        exact nodup_keys_insert st key _ hnd

theorem markDelivered_nodup (st : Store) (key : String)
    (hnd : (st.map Prod.fst).Nodup) : ((markDelivered st key).map Prod.fst).Nodup := by
  unfold markDelivered
  cases hfk : storeFind st key with
  | none => exact hnd
  | some sd => exact nodup_keys_insert st key _ hnd

theorem handle_call_nodup (st : Store) (app name stepRaw speech phone cs dg dcs : String)
    (hnd : (st.map Prod.fst).Nodup) :
    (((handle_call st app name stepRaw speech phone cs dg dcs).1).map Prod.fst).Nodup := by
  rcases handle_call_store_cases st app name stepRaw speech phone cs dg dcs with
    heq | ⟨st1, idx, hrec, heq | heq⟩
  · rw [heq]; exact hnd
  · rw [heq]
    exact recordResponse_nodup st st1 _ name speech idx hrec hnd
  · rw [heq]
    exact markDelivered_nodup st1 _ (recordResponse_nodup st st1 _ name speech idx hrec hnd)

theorem initiate_nodup (st : Store) (app phone name sid : String) (now : Nat)
    (hnd : (st.map Prod.fst).Nodup) :
    (((initiate_automated_call st app phone name now sid).store).map Prod.fst).Nodup := by
  unfold initiate_automated_call
  cases hfind : storeFind st phone with
  | none =>
    simp only [hfind]
    exact nodup_keys_insert st phone _ hnd
  | some sd =>
    simp only [hfind]
    cases ht : sd.timestamp with
    | none => simpa only [ht] using hnd
    | some t =>
      simp only [ht]
      by_cases h : now - t < 30
      · rw [if_pos h]
        cases hsid : sd.call_sid with
        | none => simpa only [hsid] using hnd
        | some sid₀ => simpa only [hsid] using hnd
      · rw [if_neg h]
        exact nodup_keys_insert _ phone _ (nodup_keys_erase st phone hnd)

/-- Claim C9 (counterexample): initiating a call for (phone, loan) keys the
session by the bare phone number, while a later controller invocation keys
it by `phone ++ "_loan"`, so the store ends up holding two distinct live
entries for the same phone number and application type. -/
theorem C9_counterexample :
    ((handle_call (initiate_automated_call [] "loan" "+919999999999" "Asha" 0 "CA123").store
        "loan" "Asha" "2" "I am 29 years old" "+919999999999" "" "" "").1 =
      [("+919999999999", freshSession "CA123" 0 "Asha" "loan"),
       ("+919999999999_loan",
        { responses := some [((0 : Int), "I am 29 years old")],
          customer_name := some "Asha" })])
    ∧ (freshSession "CA123" 0 "Asha" "loan").application_type = some "loan"
    ∧ ("+919999999999" : String) ≠ "+919999999999_loan" :=
  ⟨by decide, by decide, by decide⟩

/-- Claim C9 (amended): the store never holds two entries with the same
store key — every operation (call initiation, controller response
recording, finalization) preserves key-uniqueness of the association list —
but call initiation keys sessions by bare phone number while the controller
keys them by `phone_number ++ "_" ++ application_type`, so a single
(phone number, application type) identity can own two simultaneous live
entries under the two key formats. -/
theorem C9_amended_store_key_uniqueness (st : Store)
    (app name stepRaw speech phone cs dg dcs app2 phone2 name2 sid : String)
    (now now2 : Nat) (cd : CallData) (o : OracleResult)
    (hnd : (st.map Prod.fst).Nodup) :
    (((initiate_automated_call st app2 phone2 name2 now sid).store).map Prod.fst).Nodup
    ∧ (((handle_call st app name stepRaw speech phone cs dg dcs).1).map Prod.fst).Nodup
    ∧ (((process_incomplete_application st phone cd o now2).store).map Prod.fst).Nodup := by
  refine ⟨initiate_nodup st app2 phone2 name2 sid now hnd,
    handle_call_nodup st app name stepRaw speech phone cs dg dcs hnd, ?_⟩
  unfold process_incomplete_application
  exact fold_nodup o cd now2 phone (matchingKeys st phone) ⟨st, [], 0⟩ hnd

/-- Witness for the amended claim C9 at a concrete one-entry store. -/
theorem C9_amended_store_key_uniqueness_witness :
    (((initiate_automated_call
        [("+919999999999", freshSession "CA123" 0 "Asha" "loan")]
        "loan" "+918888888888" "Ravi" 0 "CA456").store).map Prod.fst).Nodup :=
  (C9_amended_store_key_uniqueness
    [("+919999999999", freshSession "CA123" 0 "Asha" "loan")]
    "loan" "Asha" "2" "hello" "+919999999999" "" "" "" "loan" "+918888888888" "Ravi" "CA456"
    0 0 {} OracleResult.transportFailure (by decide)).1
